import Mathlib

/-!
Verification of the service-worker cache policy and page-side lifecycle
coordinator of `vite-vanilla-tailwind`.

Worker side (`public/sw.js`): a named cache generation is precached on
install (`cache.addAll(preCacheURLs)`), stale generations are evicted on
activate, and fetches are served cache-first with write-through population
on miss and an offline fallback on network failure.

Page side (`src/js/serviceWorkerManager.js` and the `PWAManager` module):
constructor validation, the update handshake on the `installed` state, the
`controllerchange` guard flag, and the one-shot deferred install prompt.

The embedding models the cache storage as an association list from cache
names (generations) to cache stores; a cache store is an association list
from request URLs to captured responses; the network is a partial function
from URLs to responses (`none` = the fetch rejected).
-/

namespace SW

/-- Request identity: in this worker every intercepted request is keyed by
its URL (`event.request`). -/
abbrev URL := String

/-- A captured response: status and body snapshot.  The worker never
inspects the status (`sw.js` has no `response.ok` check), so the model
carries it only to state that fact. -/
structure Response where
  status : Nat
  body : String
deriving DecidableEq, Repr

/-- One cache store: request identity → captured response, as the
Cache API's `Cache` object.  `put` replaces an existing entry. -/
abbrev CacheStore := List (URL × Response)

/-- Lookup `cache.match(url)`: first entry for the URL, if any. -/
def cacheMatch (c : CacheStore) (u : URL) : Option Response :=
  match c with
  | [] => none
  | (k, r) :: rest => if k = u then some r else cacheMatch rest u

/-- Drop every entry keyed by `u` (the overwrite half of `cache.put`). -/
def cacheDeleteKey (c : CacheStore) (u : URL) : CacheStore :=
  match c with
  | [] => []
  | (k, r) :: rest =>
    if k = u then cacheDeleteKey rest u else (k, r) :: cacheDeleteKey rest u

/-- Write `cache.put(url, resp)`: overwrite any entry for `url` with `resp`. -/
def cachePut (c : CacheStore) (u : URL) (r : Response) : CacheStore :=
  (u, r) :: cacheDeleteKey c u

/-- The `caches` object (`CacheStorage`): named cache generations in
creation order. -/
abbrev CacheStorage := List (String × CacheStore)

/-- Enumerate `caches.keys()`. -/
def stKeys (s : CacheStorage) : List String := s.map Prod.fst

/-- Look up a named cache, if it exists. -/
def stLookup (s : CacheStorage) (name : String) : Option CacheStore :=
  match s with
  | [] => none
  | (k, c) :: rest => if k = name then some c else stLookup rest name

/-- Read `caches.open(name)`: the named cache's contents, or the fresh
empty cache the API would create. -/
def stOpen (s : CacheStorage) (name : String) : CacheStore :=
  (stLookup s name).getD []

/-- Write back a named cache: replace its first occurrence, or append it
(creation by `caches.open`). -/
def stSet (s : CacheStorage) (name : String) (c : CacheStore) : CacheStorage :=
  match s with
  | [] => [(name, c)]
  | (k, c0) :: rest => if k = name then (name, c) :: rest else (k, c0) :: stSet rest name c

/-- Delete `caches.delete(name)`: remove the named cache entirely. -/
def stDelete (s : CacheStorage) (name : String) : CacheStorage :=
  match s with
  | [] => []
  | (k, c) :: rest =>
    if k = name then stDelete rest name else (k, c) :: stDelete rest name

/-- Global `caches.match(url)` with no cache specified: search every cache
in order, first hit wins. -/
def cachesMatch (s : CacheStorage) (u : URL) : Option Response :=
  match s with
  | [] => none
  | (_, c) :: rest =>
    match cacheMatch c u with
    | some r => some r
    | none => cachesMatch rest u

/-- The network: `fetch(url)` resolves with a response or rejects. -/
abbrev Network := URL → Option Response

/-- Source constant `const cacheName = "v0.0.0"` — the current cache
generation. -/
def cacheName : String := "v0.0.0"

/-- Source constant `const cacheKeepList = [cacheName]` — the generations
spared by the activate phase. -/
def cacheKeepList : List String := [cacheName]

/-- Source constant `defaultResponseURL = "/offline.html"` — the offline
fallback resource. -/
def defaultResponseURL : URL := "/offline.html"

/-- Source constant `const preCacheURLs = [defaultResponseURL]` — the
precache manifest. -/
def preCacheURLs : List URL := [defaultResponseURL]

/-- Bulk insert `cache.addAll(urls)`: fetch every URL and store each
response; if any fetch rejects the whole operation rejects (`none`). -/
def addAll (net : Network) (urls : List URL) (c : CacheStore) : Option CacheStore :=
  match urls with
  | [] => some c
  | u :: rest =>
    match net u with
    | none => none
    | some r => addAll net rest (cachePut c u r)

/-- The `install` listener: open the current generation and `addAll` the
precache manifest; the event's `waitUntil` promise rejects (install fails,
`none`) iff `addAll` rejects. -/
def installHandler (net : Network) (s : CacheStorage) : Option CacheStorage :=
  match addAll net preCacheURLs (stOpen s cacheName) with
  | none => none
  | some c => some (stSet s cacheName c)

/-- Body of the callback mapped over the key list in the `activate`
listener: `if (cacheKeepList.indexOf(key) === -1) return caches.delete(key)`. -/
def evictStep (acc : CacheStorage) (key : String) : CacheStorage :=
  if key ∈ cacheKeepList then acc else stDelete acc key

/-- The `activate` listener: for each existing key, delete it unless it is
in `cacheKeepList`. -/
def activateHandler (s : CacheStorage) : CacheStorage :=
  (stKeys s).foldl evictStep s

/-- Result of one fetch interception: the response handed to
`event.respondWith` (`none` = the fetch fails to the caller), the cache
storage afterwards, and whether a network request was performed. -/
structure FetchResult where
  response : Option Response
  storage : CacheStorage
  networkUsed : Bool
deriving DecidableEq, Repr

/-- The `fetch` listener: cache-first lookup across all caches; on miss,
hit the network and on success write the clone through into the current
generation; on network failure fall back to the cached offline page. -/
def fetchHandler (net : Network) (s : CacheStorage) (u : URL) : FetchResult :=
  match cachesMatch s u with
  | some r => { response := some r, storage := s, networkUsed := false }
  | none =>
    match net u with
    | some r =>
      { response := some r
        storage := stSet s cacheName (cachePut (stOpen s cacheName) u r)
        networkUsed := true }
    | none =>
      { response := cachesMatch s defaultResponseURL, storage := s, networkUsed := true }

end SW

namespace Page

/-- A JavaScript value handed to the `PWAManager` constructor as a UI
binding: `null`, a genuine `HTMLElement`, or some other non-element value
(a string, a number, a plain object, ...). -/
inductive JsValue where
  | nullV
  | element
  | otherV
deriving DecidableEq, Repr

/-- Test `v instanceof HTMLElement`. -/
def isHTMLElement : JsValue → Bool
  | .element => true
  | _ => false

/-- The mutable fields of a `PWAManager` instance that the claims are
about: the one-shot deferred install prompt (an opaque capability,
modelled by a `Nat` tag) and the `refreshing` guard flag, together with a
count of how many times the host's `controllerChange` callback has been
invoked. -/
structure PWAState where
  deferredPrompt : Option Nat
  refreshing : Bool
  controllerChangeCalls : Nat
deriving DecidableEq, Repr

/-- The fields of a freshly constructed `PWAManager`:
`this.deferredPrompt = null; this.refreshing = false;` and the host
callback has not yet been invoked. -/
def pwaFreshState : PWAState :=
  { deferredPrompt := none, refreshing := false, controllerChangeCalls := 0 }

/-- Constructor `new PWAManager({...})`: validates the `installButton` and
`updateButton` bindings (a non-null binding must be an `HTMLElement`),
then requires `'serviceWorker' in navigator`; otherwise returns the
freshly initialised state.  The constructor performs no worker
registration — registration happens only in `init`. -/
def pwaConstructor (installButton updateButton : JsValue) (swSupported : Bool) :
    Except String PWAState :=
  if installButton ≠ .nullV ∧ ¬ isHTMLElement installButton then
    .error ("installButton must be an HTMLElement")
  else if updateButton ≠ .nullV ∧ ¬ isHTMLElement updateButton then
    .error ("updateButton must be an HTMLElement")
  else if ¬ swSupported then
    .error ("ServiceWorker is not supported in this browser")
  else
    .ok pwaFreshState

/-- A page-side side effect observable by the host browser. -/
inductive Effect where
  | register (path : String)
deriving DecidableEq, Repr

/-- Construction followed by initialisation, `new PWAManager({...})` then
`.init()`, with the list of side effects actually performed: if the
constructor throws, `init` is never reached, so no registration side
effect occurs; otherwise `init` registers the worker script. -/
def pwaConstructAndInit (installButton updateButton : JsValue) (swSupported : Bool)
    (path : String) : List Effect × Except String PWAState :=
  match pwaConstructor installButton updateButton swSupported with
  | .error e => ([], .error e)
  | .ok s => ([Effect.register path], .ok s)

/-- The `controllerchange` listener body:
`if (this.refreshing) return; this.controllerChange(e); this.refreshing = true;` -/
def handleControllerChange (s : PWAState) : PWAState :=
  if s.refreshing then s
  else { s with controllerChangeCalls := s.controllerChangeCalls + 1, refreshing := true }

/-- Dispatch the `controllerchange` signal `n` times in one page
session. -/
def dispatchControllerChange : Nat → PWAState → PWAState
  | 0, s => s
  | n + 1, s => dispatchControllerChange n (handleControllerChange s)

/-- The install-button click listener body: it dereferences
`this.deferredPrompt` unconditionally (`this.deferredPrompt.prompt()`), so
with a `null` prompt the handler throws a `TypeError`; otherwise it shows
the prompt, awaits the user's choice, and clears the prompt (one-shot).
The `Except` error is the exception escaping the async handler. -/
def installClick (s : PWAState) : Except String PWAState :=
  match s.deferredPrompt with
  | none => .error ("TypeError: Cannot read properties of null (reading prompt)")
  | some _ => .ok { s with deferredPrompt := none }

/-- The `beforeinstallprompt` listener body: store the event as the
deferred prompt (the host callback is then invoked). -/
def handleBeforeInstallPrompt (s : PWAState) (e : Nat) : PWAState :=
  { s with deferredPrompt := some e }

/-- Worker lifecycle states as exposed to the `statechange` observer. -/
inductive SWLifecycle where
  | installing
  | installed
  | activating
  | activated
  | redundant
deriving DecidableEq, Repr

/-- The observable outcome of one `statechange` notification in
`ServiceWorkerManager.init`: whether the `skipWaiting` message was posted
to the new worker and whether the `updatefound` custom event was
dispatched to the window. -/
structure StateChangeEffects where
  skipWaitingSent : Bool
  updateEventDispatched : Bool
deriving DecidableEq, Repr

/-- The `statechange` listener body in `ServiceWorkerManager.init`:
`switch` on the new worker's state; in the `installed` case, if
`navigator.serviceWorker.controller` is set, post `skipWaiting` to the new
worker and dispatch the update event; otherwise do nothing. -/
def handleStateChange (st : SWLifecycle) (hasController : Bool) : StateChangeEffects :=
  match st with
  | .installed =>
    if hasController then
      { skipWaitingSent := true, updateEventDispatched := true }
    else
      { skipWaitingSent := false, updateEventDispatched := false }
  | _ => { skipWaitingSent := false, updateEventDispatched := false }

end Page

/-- A concrete network for witnesses: it serves the offline fallback page
and nothing else. -/
def exNet : SW.Network :=
  fun u => if u = "/offline.html" then some ⟨200, "offline page"⟩ else none

/-- The cache storage produced by a successful install phase from `exNet`
on an empty storage. -/
def exInstalled : SW.CacheStorage :=
  [("v0.0.0", [("/offline.html", ⟨200, "offline page"⟩)])]

namespace SW

/-! Helper lemmas about the cache model. -/

theorem cacheMatch_cacheDeleteKey (c : CacheStore) (k u : URL) (h : u ≠ k) :
    cacheMatch (cacheDeleteKey c k) u = cacheMatch c u := by
  induction c with
  | nil => rfl
  | cons p rest ih =>
    obtain ⟨k0, r0⟩ := p
    by_cases hk : k0 = k
    · subst hk
      have hne : ¬ k0 = u := fun he => h (he ▸ rfl)
      simp [cacheDeleteKey, cacheMatch, hne, ih]
    · by_cases hu : k0 = u
      · subst hu
        simp [cacheDeleteKey, cacheMatch, hk]
      · simp [cacheDeleteKey, cacheMatch, hk, hu, ih]

theorem cacheMatch_cachePut (c : CacheStore) (k u : URL) (r : Response) :
    cacheMatch (cachePut c k r) u = if u = k then some r else cacheMatch c u := by
  by_cases h : u = k
  · subst h; simp [cachePut, cacheMatch]
  · have hne : ¬ k = u := fun he => h (he ▸ rfl)
    simp [cachePut, cacheMatch, h, hne, cacheMatch_cacheDeleteKey c k u h]

theorem addAll_fail_of_mem (net : Network) (urls : List URL) (c : CacheStore)
    (u : URL) (hu : u ∈ urls) (hn : net u = none) :
    addAll net urls c = none := by
  induction urls generalizing c with
  | nil => cases hu
  | cons u0 rest ih =>
    rcases List.mem_cons.mp hu with h | h
    · subst h; simp [addAll, hn]
    · cases h0 : net u0 with
      | none => simp [addAll, h0]
      | some r => simp [addAll, h0, ih _ h]

theorem addAll_not_mem (net : Network) (urls : List URL) (c c' : CacheStore)
    (v : URL) (h : addAll net urls c = some c') (hv : v ∉ urls) :
    cacheMatch c' v = cacheMatch c v := by
  induction urls generalizing c with
  | nil => simp [addAll] at h; subst h; rfl
  | cons u0 rest ih =>
    have hv0 : v ≠ u0 := fun he => hv (he ▸ List.mem_cons_self u0 rest)
    have hvr : v ∉ rest := fun he => hv (List.mem_cons_of_mem u0 he)
    cases h0 : net u0 with
    | none => simp [addAll, h0] at h
    | some r =>
      simp only [addAll, h0] at h
      rw [ih _ h hvr, cacheMatch_cachePut, if_neg hv0]

theorem addAll_mem (net : Network) (urls : List URL) (c c' : CacheStore)
    (u : URL) (h : addAll net urls c = some c') (hu : u ∈ urls) :
    cacheMatch c' u = net u := by
  induction urls generalizing c with
  | nil => cases hu
  | cons u0 rest ih =>
    cases h0 : net u0 with
    | none => simp [addAll, h0] at h
    | some r =>
      simp only [addAll, h0] at h
      by_cases hm : u ∈ rest
      · exact ih _ h hm
      · have he : u = u0 := by
          rcases List.mem_cons.mp hu with h1 | h1
          · exact h1
          · exact absurd h1 hm
        subst he
        rw [addAll_not_mem net rest _ _ u h hm, cacheMatch_cachePut, if_pos rfl, h0]

theorem stLookup_stSet (s : CacheStorage) (n name : String) (c : CacheStore) :
    stLookup (stSet s n c) name = if name = n then some c else stLookup s name := by
  induction s with
  | nil =>
    by_cases h : name = n
    · subst h; simp [stSet, stLookup]
    · have hne : ¬ n = name := fun he => h (he ▸ rfl)
      simp [stSet, stLookup, h, hne]
  | cons p rest ih =>
    obtain ⟨k, c0⟩ := p
    by_cases hk : k = n
    · subst hk
      by_cases h : name = k
      · subst h; simp [stSet, stLookup]
      · have hne : ¬ k = name := fun he => h (he ▸ rfl)
        simp [stSet, stLookup, h, hne]
    · by_cases h : k = name
      · have hne : ¬ name = n := fun he => hk (by rw [h, he])
        simp [stSet, stLookup, hk, h, hne]
      · simp [stSet, stLookup, hk, h, ih]

theorem stLookup_stDelete (s : CacheStorage) (k name : String) :
    stLookup (stDelete s k) name = if name = k then none else stLookup s name := by
  induction s with
  | nil => simp [stDelete, stLookup]
  | cons p rest ih =>
    obtain ⟨k0, c0⟩ := p
    by_cases hk : k0 = k
    · subst hk
      by_cases h : name = k0
      · subst h; simp [stDelete, stLookup, ih]
      · have hne : ¬ k0 = name := fun he => h (he ▸ rfl)
        simp [stDelete, stLookup, ih, h, hne]
    · by_cases h : k0 = name
      · by_cases h2 : name = k
        · exact absurd (h.trans h2) hk
        · simp [stDelete, stLookup, hk, h, h2]
      · simp [stDelete, stLookup, hk, h, ih]

theorem stLookup_none_of_not_mem (s : CacheStorage) (name : String)
    (h : name ∉ stKeys s) : stLookup s name = none := by
  induction s with
  | nil => rfl
  | cons p rest ih =>
    obtain ⟨k, c⟩ := p
    have hk : ¬ k = name := by
      intro he
      exact h (he ▸ List.mem_cons_self k (stKeys rest))
    have hr : name ∉ stKeys rest := fun he => h (List.mem_cons_of_mem k he)
    simp [stLookup, hk, ih hr]

theorem cachesMatch_isSome_of_store (s : CacheStorage) (n : String)
    (c : CacheStore) (u : URL) (r : Response)
    (hl : stLookup s n = some c) (hm : cacheMatch c u = some r) :
    (cachesMatch s u).isSome = true := by
  induction s with
  | nil => simp [stLookup] at hl
  | cons p rest ih =>
    obtain ⟨k, c0⟩ := p
    by_cases hk : k = n
    · subst hk
      have hc : c0 = c := by simpa [stLookup] using hl
      subst hc
      simp [cachesMatch, hm]
    · simp only [stLookup, if_neg hk] at hl
      cases h0 : cacheMatch c0 u with
      | some r0 => simp [cachesMatch, h0]
      | none => simp only [cachesMatch, h0]; exact ih hl

theorem cachesMatch_stSet_of_none (s : CacheStorage) (n : String)
    (c : CacheStore) (u : URL) (h : cachesMatch s u = none) :
    cachesMatch (stSet s n c) u = cacheMatch c u := by
  induction s with
  | nil => cases h0 : cacheMatch c u <;> simp [stSet, cachesMatch, h0]
  | cons p rest ih =>
    obtain ⟨k, c0⟩ := p
    have h1 : cacheMatch c0 u = none := by
      cases h0 : cacheMatch c0 u with
      | none => rfl
      | some r0 => simp [cachesMatch, h0] at h
    have h2 : cachesMatch rest u = none := by
      simpa [cachesMatch, h1] using h
    by_cases hk : k = n
    · subst hk
      cases h0 : cacheMatch c u <;> simp [stSet, cachesMatch, h0, h2]
    · simp [stSet, cachesMatch, hk, h1, ih h2]

theorem evict_foldl_keep (ks : List String) (t : CacheStorage) (name : String)
    (h : name ∈ cacheKeepList) :
    stLookup (List.foldl evictStep t ks) name = stLookup t name := by
  induction ks generalizing t with
  | nil => rfl
  | cons k rest ih =>
    rw [List.foldl_cons, ih]
    unfold evictStep
    by_cases hk : k ∈ cacheKeepList
    · rw [if_pos hk]
    · rw [if_neg hk, stLookup_stDelete]
      have hne : ¬ name = k := fun he => hk (he ▸ h)
      rw [if_neg hne]

theorem evict_foldl_none (ks : List String) (t : CacheStorage) (name : String)
    (h : stLookup t name = none) :
    stLookup (List.foldl evictStep t ks) name = none := by
  induction ks generalizing t with
  | nil => exact h
  | cons k rest ih =>
    rw [List.foldl_cons]
    apply ih
    unfold evictStep
    by_cases hk : k ∈ cacheKeepList
    · rw [if_pos hk]; exact h
    · rw [if_neg hk, stLookup_stDelete]
      by_cases hn : name = k
      · rw [if_pos hn]
      · rw [if_neg hn]; exact h

theorem evict_foldl_del (ks : List String) (t : CacheStorage) (name : String)
    (hk : name ∈ ks) (h : name ∉ cacheKeepList) :
    stLookup (List.foldl evictStep t ks) name = none := by
  induction ks generalizing t with
  | nil => cases hk
  | cons k rest ih =>
    rw [List.foldl_cons]
    rcases List.mem_cons.mp hk with he | he
    · subst he
      apply evict_foldl_none
      unfold evictStep
      rw [if_neg h, stLookup_stDelete, if_pos rfl]
    · exact ih (evictStep t k) he

theorem stOpen_stSet_self (s : CacheStorage) (n : String) (c : CacheStore) :
    stOpen (stSet s n c) n = c := by
  unfold stOpen
  rw [stLookup_stSet, if_pos rfl]
  rfl

theorem fetchHandler_hit (net : Network) (s : CacheStorage) (u : URL)
    (r : Response) (h : cachesMatch s u = some r) :
    fetchHandler net s u = { response := some r, storage := s, networkUsed := false } := by
  unfold fetchHandler
  rw [h]

theorem fetchHandler_miss_some (net : Network) (s : CacheStorage) (u : URL)
    (r : Response) (h1 : cachesMatch s u = none) (h2 : net u = some r) :
    fetchHandler net s u =
      { response := some r
        storage := stSet s cacheName (cachePut (stOpen s cacheName) u r)
        networkUsed := true } := by
  unfold fetchHandler
  rw [h1, h2]

theorem fetchHandler_miss_none (net : Network) (s : CacheStorage) (u : URL)
    (h1 : cachesMatch s u = none) (h2 : net u = none) :
    fetchHandler net s u =
      { response := cachesMatch s defaultResponseURL, storage := s, networkUsed := true } := by
  unfold fetchHandler
  rw [h1, h2]

end SW

open SW Page

/-- Claim C1: after a successful install phase, every URL of the precache
manifest is in the current generation's cache store with exactly the
response the network returned at install time, and resolves from cache
with the network disabled (no network use, a present response); and if
fetching any one precache URL fails, the install phase as a whole fails. -/
theorem install_precache_contract (net : Network) :
    (∀ s s', installHandler net s = some s' → ∀ u ∈ preCacheURLs,
        cacheMatch (stOpen s' cacheName) u = net u ∧
        (fetchHandler (fun _ => none) s' u).networkUsed = false ∧
        ((fetchHandler (fun _ => none) s' u).response).isSome = true) ∧
    (∀ s u, u ∈ preCacheURLs → net u = none → installHandler net s = none) := by
  constructor
  · intro s s' h u hu
    cases ha : addAll net preCacheURLs (stOpen s cacheName) with
    | none => simp [installHandler, ha] at h
    | some cNew =>
      simp only [installHandler, ha, Option.some.injEq] at h
      subst h
      have hopen : stOpen (stSet s cacheName cNew) cacheName = cNew :=
        stOpen_stSet_self s cacheName cNew
      have hmem := addAll_mem net preCacheURLs (stOpen s cacheName) cNew u ha hu
      cases hn : net u with
      | none =>
        have hfail := addAll_fail_of_mem net preCacheURLs (stOpen s cacheName) u hu hn
        rw [hfail] at ha
        cases ha
      | some r =>
        have hcur : cacheMatch cNew u = some r := by rw [hmem, hn]
        have hsome : (cachesMatch (stSet s cacheName cNew) u).isSome = true := by
          apply cachesMatch_isSome_of_store _ cacheName cNew u r _ hcur
          rw [stLookup_stSet, if_pos rfl]
        obtain ⟨r2, hr2⟩ := Option.isSome_iff_exists.mp hsome
        refine ⟨by rw [hopen, hcur], ?_, ?_⟩
        · rw [fetchHandler_hit (fun _ => none) _ u r2 hr2]
        · rw [fetchHandler_hit (fun _ => none) _ u r2 hr2]
          rfl
  · intro s u hu hn
    unfold installHandler
    rw [addAll_fail_of_mem net preCacheURLs (stOpen s cacheName) u hu hn]

/-- Witness for C1: concrete successful install of the precache manifest
from `exNet` into an empty storage. -/
theorem install_precache_contract_witness :
    cacheMatch (stOpen exInstalled cacheName) "/offline.html" = exNet "/offline.html" ∧
    (fetchHandler (fun _ => none) exInstalled "/offline.html").networkUsed = false ∧
    ((fetchHandler (fun _ => none) exInstalled "/offline.html").response).isSome = true :=
  (install_precache_contract exNet).1 [] exInstalled (by decide) "/offline.html" (by decide)

/-- Claim C2: after the activate phase, a cache generation is still
queryable exactly when it is in the keep list, and a kept generation is
preserved unchanged; every other generation is deleted. -/
theorem activate_eviction_complete (s : CacheStorage) (name : String) :
    stLookup (activateHandler s) name =
      if name ∈ cacheKeepList then stLookup s name else none := by
  by_cases h : name ∈ cacheKeepList
  · rw [if_pos h]
    exact evict_foldl_keep (stKeys s) s name h
  · rw [if_neg h]
    by_cases hm : name ∈ stKeys s
    · exact evict_foldl_del (stKeys s) s name hm h
    · exact evict_foldl_none (stKeys s) s name (stLookup_none_of_not_mem s name hm)

/-- Claim C3: an intercepted request present in the cache is answered with
the cached response exactly as stored, with no network request and no
modification of the cache (cache-first, no revalidation). -/
theorem fetch_cache_first (net : Network) (s : CacheStorage) (u : URL) (r : Response)
    (h : cachesMatch s u = some r) :
    fetchHandler net s u = { response := some r, storage := s, networkUsed := false } :=
  fetchHandler_hit net s u r h

/-- Witness for C3: the cached offline page is served untouched even
though the network would answer with a different response. -/
theorem fetch_cache_first_witness :
    fetchHandler (fun _ => some ⟨500, "server error"⟩) exInstalled "/offline.html" =
      { response := some ⟨200, "offline page"⟩, storage := exInstalled, networkUsed := false } :=
  fetch_cache_first (fun _ => some ⟨500, "server error"⟩) exInstalled "/offline.html"
    ⟨200, "offline page"⟩ (by decide)

/-- Claim C4: on a cache miss with a successful network request, the
handler returns the network response, writes it through into the current
generation keyed by the request, and a subsequent interception of the same
request with the network disabled is served the now-cached response. -/
theorem fetch_write_through_on_miss (net : Network) (s : CacheStorage) (u : URL)
    (r : Response) (hm : cachesMatch s u = none) (hn : net u = some r) :
    (fetchHandler net s u).response = some r ∧
    cacheMatch (stOpen (fetchHandler net s u).storage cacheName) u = some r ∧
    fetchHandler (fun _ => none) (fetchHandler net s u).storage u =
      { response := some r
        storage := (fetchHandler net s u).storage
        networkUsed := false } := by
  rw [fetchHandler_miss_some net s u r hm hn]
  refine ⟨rfl, ?_, ?_⟩
  · show cacheMatch
      (stOpen (stSet s cacheName (cachePut (stOpen s cacheName) u r)) cacheName) u = some r
    rw [stOpen_stSet_self, cacheMatch_cachePut, if_pos rfl]
  · show fetchHandler (fun _ => none)
        (stSet s cacheName (cachePut (stOpen s cacheName) u r)) u =
      { response := some r
        storage := stSet s cacheName (cachePut (stOpen s cacheName) u r)
        networkUsed := false }
    apply fetchHandler_hit
    rw [cachesMatch_stSet_of_none s cacheName _ u hm, cacheMatch_cachePut, if_pos rfl]

/-- Witness for C4: a first interception of an uncached request with the
network available populates the cache; a second one with the network
disabled is served from it. -/
theorem fetch_write_through_on_miss_witness :
    (fetchHandler (fun _ => some ⟨200, "app code"⟩) [] "/app.js").response =
      some ⟨200, "app code"⟩ ∧
    cacheMatch
      (stOpen (fetchHandler (fun _ => some ⟨200, "app code"⟩) [] "/app.js").storage cacheName)
      "/app.js" = some ⟨200, "app code"⟩ ∧
    fetchHandler (fun _ => none)
        (fetchHandler (fun _ => some ⟨200, "app code"⟩) [] "/app.js").storage "/app.js" =
      { response := some ⟨200, "app code"⟩
        storage := (fetchHandler (fun _ => some ⟨200, "app code"⟩) [] "/app.js").storage
        networkUsed := false } :=
  fetch_write_through_on_miss (fun _ => some ⟨200, "app code"⟩) [] "/app.js"
    ⟨200, "app code"⟩ rfl rfl

/-- Claim C5: on a cache miss whose network request fails, the handler
answers with whatever the cache holds for the offline fallback URL; in
particular, if the fallback itself is not cached the interception surfaces
as a failed fetch (no response) to the caller. -/
theorem fetch_offline_fallback (net : Network) (s : CacheStorage) (u : URL)
    (hm : cachesMatch s u = none) (hn : net u = none) :
    (fetchHandler net s u).response = cachesMatch s defaultResponseURL ∧
    (cachesMatch s defaultResponseURL = none → (fetchHandler net s u).response = none) := by
  rw [fetchHandler_miss_none net s u hm hn]
  exact ⟨rfl, fun h => h⟩

/-- Witness for C5: with the network down, an uncached request is answered
with the cached offline page. -/
theorem fetch_offline_fallback_witness :
    (fetchHandler (fun _ => none) exInstalled "/nope").response =
      cachesMatch exInstalled defaultResponseURL ∧
    (cachesMatch exInstalled defaultResponseURL = none →
      (fetchHandler (fun _ => none) exInstalled "/nope").response = none) :=
  fetch_offline_fallback (fun _ => none) exInstalled "/nope" (by decide) rfl

/-- Claim C6: the `statechange` observer posts the skip-waiting message
and dispatches the host-visible update event exactly when the new worker
reaches the installed state while a controller already governs the page;
in every other case (first install included) it does neither. -/
theorem update_handshake_gating (st : SWLifecycle) (hc : Bool) :
    handleStateChange st hc =
      if st = SWLifecycle.installed ∧ hc = true then
        { skipWaitingSent := true, updateEventDispatched := true }
      else
        { skipWaitingSent := false, updateEventDispatched := false } := by
  cases st <;> cases hc <;> simp [handleStateChange]

/-- Once the guard flag is set, further `controllerchange` dispatches are
no-ops. -/
theorem ctrl_dispatch_fixed (n : Nat) (s : PWAState) (h : s.refreshing = true) :
    dispatchControllerChange n s = s := by
  induction n with
  | zero => rfl
  | succ m ih =>
    show dispatchControllerChange m (handleControllerChange s) = s
    have hs : handleControllerChange s = s := by
      unfold handleControllerChange
      rw [if_pos h]
    rw [hs]
    exact ih

/-- Claim C7: starting from a freshly constructed manager, any number of
`controllerchange` dispatches invokes the host callback at most once, and
every dispatch after the first leaves the state exactly as after the
first. -/
theorem controller_change_at_most_once (n : Nat) :
    (dispatchControllerChange n pwaFreshState).controllerChangeCalls ≤ 1 ∧
    (1 ≤ n →
      dispatchControllerChange n pwaFreshState = dispatchControllerChange 1 pwaFreshState) := by
  cases n with
  | zero => exact ⟨by decide, fun h => absurd h (by decide)⟩
  | succ m =>
    have h2 : dispatchControllerChange (m + 1) pwaFreshState =
        { deferredPrompt := none, refreshing := true, controllerChangeCalls := 1 } := by
      show dispatchControllerChange m (handleControllerChange pwaFreshState) = _
      exact ctrl_dispatch_fixed m _ rfl
    constructor
    · rw [h2]
    · intro _
      rw [h2]
      rfl

/-- Witness for C7: two dispatches in one session give one callback
invocation and the same state as a single dispatch. -/
theorem controller_change_at_most_once_witness :
    (dispatchControllerChange 2 pwaFreshState).controllerChangeCalls ≤ 1 ∧
    dispatchControllerChange 2 pwaFreshState = dispatchControllerChange 1 pwaFreshState :=
  ⟨(controller_change_at_most_once 2).1, (controller_change_at_most_once 2).2 (by decide)⟩

/-- Claim C8: construction (followed by `init`) fails exactly when a
non-null install or update binding is not an `HTMLElement` or the
environment lacks worker-registration capability; whenever it fails, it
fails with one of the descriptive constructor messages and no registration
side effect has occurred. -/
theorem constructor_fail_fast (ib ub : Page.JsValue) (sw : Bool) (path : String) :
    (((Page.pwaConstructAndInit ib ub sw path).2.isOk = false) ↔
      ((ib ≠ Page.JsValue.nullV ∧ Page.isHTMLElement ib = false) ∨
       (ub ≠ Page.JsValue.nullV ∧ Page.isHTMLElement ub = false) ∨ sw = false)) ∧
    ((Page.pwaConstructAndInit ib ub sw path).2.isOk = false →
      (Page.pwaConstructAndInit ib ub sw path).1 = []) ∧
    (∀ e, (Page.pwaConstructAndInit ib ub sw path).2 = Except.error e →
      (e = "installButton must be an HTMLElement" ∨
       e = "updateButton must be an HTMLElement" ∨
       e = "ServiceWorker is not supported in this browser")) := by
  cases ib <;> cases ub <;> cases sw <;>
    simp [Page.pwaConstructAndInit, Page.pwaConstructor, Page.isHTMLElement,
      Except.isOk, Except.toBool]

/-- Witness for C8: a non-element install binding makes construction fail
with no registration side effect. -/
theorem constructor_fail_fast_witness :
    ((Page.pwaConstructAndInit Page.JsValue.otherV Page.JsValue.nullV true "./sw.js").2.isOk
      = false) ∧
    (Page.pwaConstructAndInit Page.JsValue.otherV Page.JsValue.nullV true "./sw.js").1 = [] := by
  have h := constructor_fail_fast Page.JsValue.otherV Page.JsValue.nullV true "./sw.js"
  have hbad := h.1.mpr (Or.inl ⟨by decide, rfl⟩)
  exact ⟨hbad, h.2.1 hbad⟩

/-- Counterexample for C9: after the install flow runs once (consuming the
deferred prompt), a second trigger of the click handler throws a
`TypeError` — it neither no-ops nor is handled by any guard. -/
theorem install_retrigger_counterexample :
    installClick (handleBeforeInstallPrompt pwaFreshState 0) = Except.ok pwaFreshState ∧
    installClick pwaFreshState =
      Except.error ("TypeError: Cannot read properties of null (reading prompt)") :=
  ⟨rfl, rfl⟩

/-- Amended C9: whenever the deferred prompt has been consumed (or was
never captured), triggering the install flow dereferences the null prompt
and the async click handler throws a `TypeError` (surfacing as an
unhandled promise rejection); there is no guard making it a no-op. -/
theorem install_retrigger_throws (s : PWAState) (h : s.deferredPrompt = none) :
    installClick s =
      Except.error ("TypeError: Cannot read properties of null (reading prompt)") := by
  unfold installClick
  rw [h]

/-- Witness for the amended C9 at the freshly constructed state. -/
theorem install_retrigger_throws_witness :
    installClick pwaFreshState =
      Except.error ("TypeError: Cannot read properties of null (reading prompt)") :=
  install_retrigger_throws pwaFreshState rfl

/-- Claim C10: on a cache miss the handler caches whatever response the
network resolved with — any status, error statuses included — and from
then on every interception of that request is served the cached response
cache-first (no network), whatever the network would now answer. -/
theorem unconditional_caching_of_error_responses (net : Network) (s : CacheStorage)
    (u : URL) (status : Nat) (body : String)
    (hm : cachesMatch s u = none) (hn : net u = some { status := status, body := body }) :
    cacheMatch (stOpen (fetchHandler net s u).storage cacheName) u =
      some { status := status, body := body } ∧
    (∀ net2 : Network, fetchHandler net2 (fetchHandler net s u).storage u =
      { response := some { status := status, body := body }
        storage := (fetchHandler net s u).storage
        networkUsed := false }) := by
  rw [fetchHandler_miss_some net s u { status := status, body := body } hm hn]
  constructor
  · show cacheMatch
      (stOpen
        (stSet s cacheName
          (cachePut (stOpen s cacheName) u { status := status, body := body })) cacheName) u =
      some { status := status, body := body }
    rw [stOpen_stSet_self, cacheMatch_cachePut, if_pos rfl]
  · intro net2
    apply fetchHandler_hit
    rw [cachesMatch_stSet_of_none s cacheName _ u hm, cacheMatch_cachePut, if_pos rfl]

/-- Witness for C10: a 404 network response is cached on miss and then
served cache-first even with the network disabled. -/
theorem unconditional_caching_of_error_responses_witness :
    cacheMatch
      (stOpen (fetchHandler (fun _ => some ⟨404, "not found"⟩) [] "/missing").storage cacheName)
      "/missing" = some ⟨404, "not found"⟩ ∧
    fetchHandler (fun _ => none)
        (fetchHandler (fun _ => some ⟨404, "not found"⟩) [] "/missing").storage "/missing" =
      { response := some ⟨404, "not found"⟩
        storage := (fetchHandler (fun _ => some ⟨404, "not found"⟩) [] "/missing").storage
        networkUsed := false } :=
  have h := unconditional_caching_of_error_responses (fun _ => some ⟨404, "not found"⟩)
    [] "/missing" 404 "not found" rfl rfl
  ⟨h.1, h.2 (fun _ => none)⟩
